import Mathlib

/-
Verification of the development-time reverse proxy in this repository
(frontendMiddleware in server/middleware/frontend.ts, the error middleware in
server/utils/request.ts, and errorBody in server/utils/bodyFormat.ts).

The embedding is shallow: the middleware becomes a Lean function from an
inbound request and a network oracle to an outcome record; the WebSocket relay
wiring (the six callback handlers installed on the downstream socket ws and
the upstream socket wsClient) becomes a small event-processing step function
over a session state, together with the WHATWG WebSocket platform rules the
handlers rely on (close on an already closed socket is a no-op, send on a
closed socket discards, an error on a live connection is followed by a close
event).
-/

namespace DenoProxy

/-- Which side of a relay session a socket or event belongs to: down is the
client connection ws obtained from ctx.upgrade, up is the upstream connection
wsClient opened to the asset dev server. -/
inductive Side where
  | down
  | up
deriving DecidableEq

/-- An event delivered to the relay session: a message arriving on one side,
a close event firing on one side, or an error event firing on one side. -/
inductive Ev where
  | msg (s : Side) (d : Nat)
  | closeEv (s : Side)
  | errEv (s : Side)
deriving DecidableEq

/-- State of one relay session: whether each socket is still open, the data
passed to wsClient.send and to ws.send so far (in call order), and the queue
of events not yet dispatched. -/
structure Sess where
  downOpen : Bool
  upOpen : Bool
  toUp : List Nat
  toDown : List Nat
  queue : List Ev
deriving DecidableEq

/-- The session created by frontendMiddleware right after ctx.upgrade and
new WebSocket succeed: both sockets open, no traffic relayed yet, plus the
events the environment will deliver. -/
def initSess (events : List Ev) : Sess :=
  { downOpen := true, upOpen := true, toUp := [], toDown := [], queue := events }

/-- Model of ws.close (WHATWG close): on an open socket it starts closing and
a close event will fire later; on a socket already closing or closed it does
nothing. -/
def closeDown (s : Sess) : Sess :=
  if s.downOpen then
    { s with downOpen := false, queue := s.queue ++ [Ev.closeEv Side.down] }
  else s

/-- Model of wsClient.close, symmetric to closeDown. -/
def closeUp (s : Sess) : Sess :=
  if s.upOpen then
    { s with upOpen := false, queue := s.queue ++ [Ev.closeEv Side.up] }
  else s

/-- Model of wsClient.send (WHATWG send): data is transmitted when the socket
is open and silently discarded when it is closing or closed. -/
def sendUp (d : Nat) (s : Sess) : Sess :=
  if s.upOpen then { s with toUp := s.toUp ++ [d] } else s

/-- Model of ws.send, symmetric to sendUp. -/
def sendDown (d : Nat) (s : Sess) : Sess :=
  if s.downOpen then { s with toDown := s.toDown ++ [d] } else s

/-- Dispatch one event: the platform marks the affected socket and, for an
error on a live connection, schedules the close event that the WebSocket
standard guarantees follows an error; then the handler installed by
frontendMiddleware runs. The handlers are transcribed from the source:
ws.onmessage sends to wsClient, ws.onclose closes wsClient, ws.onerror calls
ws.close (it closes the downstream socket itself), wsClient.onmessage sends
to ws, wsClient.onclose closes ws, wsClient.onerror calls ws.close. -/
def procEv (e : Ev) (s : Sess) : Sess :=
  match e with
  | Ev.msg Side.down d => sendUp d s
  | Ev.msg Side.up d => sendDown d s
  | Ev.closeEv Side.down => closeUp { s with downOpen := false }
  | Ev.closeEv Side.up => closeDown { s with upOpen := false }
  | Ev.errEv Side.down =>
      let s1 := if s.downOpen then
        { s with downOpen := false, queue := s.queue ++ [Ev.closeEv Side.down] }
      else s
      closeDown s1
  | Ev.errEv Side.up =>
      let s1 := if s.upOpen then
        { s with upOpen := false, queue := s.queue ++ [Ev.closeEv Side.up] }
      else s
      closeDown s1

/-- Termination measure for a session run: pending events plus one unit for
each socket still open (each open socket can contribute at most one more
close event). -/
def sessMeasure (s : Sess) : Nat :=
  s.queue.length + (if s.downOpen then 1 else 0) + (if s.upOpen then 1 else 0)

theorem procEv_measure (e : Ev) (s : Sess) : sessMeasure (procEv e s) ≤ sessMeasure s := by
  obtain ⟨d0, u0, tu, td, q⟩ := s
  rcases e with ⟨side, x⟩ | side | side <;> rcases side <;> rcases d0 <;> rcases u0 <;>
    simp [procEv, sendUp, sendDown, closeDown, closeUp, sessMeasure]

/-- Fuel-bounded event dispatch: each step dispatches the head event of the
queue, until the queue is empty or the fuel runs out. -/
def runFuel : Nat → Sess → Sess
  | 0, s => s
  | fuel + 1, s =>
    match s.queue with
    | [] => s
    | e :: rest => runFuel fuel (procEv e { s with queue := rest })

/-- Run the session until no event is pending: sessMeasure fuel always
suffices, since each dispatched event shrinks the measure. -/
def runSess (s : Sess) : Sess := runFuel (sessMeasure s) s

theorem runFuel_nilq : ∀ (n : Nat) (s : Sess), s.queue = [] → runFuel n s = s := by
  intro n s h
  cases n with
  | zero => rfl
  | succ n => simp [runFuel, h]

theorem runFuel_add : ∀ (n k : Nat) (s : Sess), sessMeasure s ≤ n →
    runFuel (n + k) s = runFuel n s := by
  intro n
  induction n with
  | zero =>
    intro k s h
    have hq : s.queue = [] := by
      cases hq : s.queue with
      | nil => rfl
      | cons e rest => simp [sessMeasure, hq] at h
    rw [runFuel_nilq _ _ hq, runFuel_nilq _ _ hq]
  | succ n ih =>
    intro k s h
    cases hq : s.queue with
    | nil => rw [runFuel_nilq _ _ hq, runFuel_nilq _ _ hq]
    | cons e rest =>
      have hstep1 : runFuel (n + 1 + k) s = runFuel (n + k) (procEv e { s with queue := rest }) := by
        have : n + 1 + k = (n + k) + 1 := by omega
        rw [this]
        simp [runFuel, hq]
      have hstep2 : runFuel (n + 1) s = runFuel n (procEv e { s with queue := rest }) := by
        simp [runFuel, hq]
      rw [hstep1, hstep2]
      apply ih
      have hm := procEv_measure e { s with queue := rest }
      simp only [sessMeasure, hq, List.length_cons] at hm h ⊢
      omega

theorem runFuel_measure (n : Nat) (s : Sess) (h : sessMeasure s ≤ n) :
    runFuel n s = runFuel (sessMeasure s) s := by
  have : n = sessMeasure s + (n - sessMeasure s) := by omega
  rw [this, runFuel_add _ _ _ le_rfl]

theorem runSess_nil (s : Sess) (h : s.queue = []) : runSess s = s :=
  runFuel_nilq _ s h

theorem runSess_cons (s : Sess) (e : Ev) (rest : List Ev) (h : s.queue = e :: rest) :
    runSess s = runSess (procEv e { s with queue := rest }) := by
  have hm1 : sessMeasure s = sessMeasure { s with queue := rest } + 1 := by
    simp [sessMeasure, h]
    omega
  have hstep : runFuel (sessMeasure { s with queue := rest } + 1) s =
      runFuel (sessMeasure { s with queue := rest }) (procEv e { s with queue := rest }) := by
    simp [runFuel, h]
  have hm2 := procEv_measure e { s with queue := rest }
  unfold runSess
  rw [hm1, hstep, runFuel_measure _ _ hm2]

/-- Induction principle following the run of a session. -/
theorem runSess_induction (P : Sess → Prop)
    (hnil : ∀ s, s.queue = [] → P s)
    (hstep : ∀ e rest s, s.queue = e :: rest → P (procEv e { s with queue := rest }) → P s) :
    ∀ s, P s := by
  have main : ∀ n s, sessMeasure s ≤ n → P s := by
    intro n
    induction n with
    | zero =>
      intro s h
      apply hnil
      cases hq : s.queue with
      | nil => rfl
      | cons e rest => simp [sessMeasure, hq] at h
    | succ n ih =>
      intro s h
      cases hq : s.queue with
      | nil => exact hnil s hq
      | cons e rest =>
        refine hstep e rest s hq (ih _ ?_)
        have hm := procEv_measure e { s with queue := rest }
        simp only [sessMeasure, hq, List.length_cons] at hm h ⊢
        omega

  exact fun s => main (sessMeasure s) s le_rfl

theorem runSess_queue (s : Sess) : (runSess s).queue = [] := by
  induction s using runSess_induction with
  | hnil s h => rw [runSess_nil s h, h]
  | hstep e rest s h ih => rw [runSess_cons s e rest h]; exact ih

/-- Reachability invariant of the relay wiring: the downstream socket is never
the only open one (every transition that closes the upstream also closes the
downstream), and whenever the upstream is the only open one, the close event
of the downstream socket is still pending, and dispatching it will close the
upstream. -/
def sessInv (s : Sess) : Prop :=
  (s.downOpen = true → s.upOpen = true) ∧
  (s.upOpen = true → s.downOpen = false → Ev.closeEv Side.down ∈ s.queue)

theorem procEv_inv (e : Ev) (rest : List Ev) (s : Sess) (hq : s.queue = e :: rest)
    (h : sessInv s) : sessInv (procEv e { s with queue := rest }) := by
  obtain ⟨h1, h2⟩ := h
  obtain ⟨d0, u0, tu, td, q⟩ := s
  simp only at h1 h2
  simp only at hq
  subst hq
  rcases e with ⟨side, x⟩ | side | side <;> rcases side <;> rcases d0 <;> rcases u0 <;>
    simp_all [procEv, sendUp, sendDown, closeDown, closeUp, sessInv]

theorem runSess_inv (s : Sess) (h : sessInv s) : sessInv (runSess s) := by
  induction s using runSess_induction with
  | hnil s hq => rwa [runSess_nil s hq]
  | hstep e rest s hq ih =>
    rw [runSess_cons s e rest hq]
    exact ih (procEv_inv e rest s hq h)

theorem procEv_down_mono (e : Ev) (s : Sess) (h : s.downOpen = false) :
    (procEv e s).downOpen = false := by
  obtain ⟨d0, u0, tu, td, q⟩ := s
  simp only at h
  subst h
  rcases e with ⟨side, x⟩ | side | side <;> rcases side <;> rcases u0 <;>
    simp [procEv, sendUp, sendDown, closeDown, closeUp]

theorem procEv_up_mono (e : Ev) (s : Sess) (h : s.upOpen = false) :
    (procEv e s).upOpen = false := by
  obtain ⟨d0, u0, tu, td, q⟩ := s
  simp only at h
  subst h
  rcases e with ⟨side, x⟩ | side | side <;> rcases side <;> rcases d0 <;>
    simp [procEv, sendUp, sendDown, closeDown, closeUp]

theorem runSess_down_mono (s : Sess) (h : s.downOpen = false) :
    (runSess s).downOpen = false := by
  induction s using runSess_induction with
  | hnil s hq => rwa [runSess_nil s hq]
  | hstep e rest s hq ih =>
    rw [runSess_cons s e rest hq]
    exact ih (procEv_down_mono e _ h)

theorem runSess_up_mono (s : Sess) (h : s.upOpen = false) :
    (runSess s).upOpen = false := by
  induction s using runSess_induction with
  | hnil s hq => rwa [runSess_nil s hq]
  | hstep e rest s hq ih =>
    rw [runSess_cons s e rest hq]
    exact ih (procEv_up_mono e _ h)

/-- A trigger event is one of the four closing conditions: a close or an error
on either side. -/
def isTrigger (e : Ev) : Bool :=
  match e with
  | Ev.msg _ _ => false
  | Ev.closeEv _ => true
  | Ev.errEv _ => true

theorem procEv_trigger (e : Ev) (s : Sess) (h : isTrigger e = true) :
    (procEv e s).downOpen = false ∨ (procEv e s).upOpen = false := by
  obtain ⟨d0, u0, tu, td, q⟩ := s
  rcases e with ⟨side, x⟩ | side | side <;> rcases side <;> rcases d0 <;> rcases u0 <;>
    simp_all [procEv, sendUp, sendDown, closeDown, closeUp, isTrigger]

theorem procEv_msg_queue (side : Side) (x : Nat) (s : Sess) :
    (procEv (Ev.msg side x) s).queue = s.queue := by
  rcases side <;> simp [procEv, sendUp, sendDown] <;> split <;> simp

theorem runSess_trigger (s : Sess) (h : ∃ e ∈ s.queue, isTrigger e = true) :
    (runSess s).downOpen = false ∨ (runSess s).upOpen = false := by
  induction s using runSess_induction with
  | hnil s hq =>
    obtain ⟨e, he, _⟩ := h
    rw [hq] at he
    exact absurd he (List.not_mem_nil e)
  | hstep e rest s hq ih =>
    rw [runSess_cons s e rest hq]
    by_cases htr : isTrigger e = true
    · rcases procEv_trigger e { s with queue := rest } htr with hc | hc
      · exact Or.inl (runSess_down_mono _ hc)
      · exact Or.inr (runSess_up_mono _ hc)
    · apply ih
      obtain ⟨t, ht, httr⟩ := h
      rw [hq] at ht
      rcases List.mem_cons.mp ht with heq | hmem
      · exact absurd (heq ▸ httr) htr
      · rcases e with ⟨side, x⟩ | side | side
        · exact ⟨t, by simpa [procEv_msg_queue] using hmem, httr⟩
        · exact absurd rfl htr
        · exact absurd rfl htr

/-- C6 core: once any close or error event is delivered, running the session
to quiescence leaves both connections closed and no pending events. -/
theorem runSess_closes (events : List Ev) (h : ∃ e ∈ events, isTrigger e = true) :
    (runSess (initSess events)).downOpen = false ∧
    (runSess (initSess events)).upOpen = false ∧
    (runSess (initSess events)).queue = [] := by
  have hq := runSess_queue (initSess events)
  have hinv := runSess_inv (initSess events) (by constructor <;> simp [initSess])
  have hsome := runSess_trigger (initSess events) h
  obtain ⟨h1, h2⟩ := hinv
  refine ⟨?_, ?_, hq⟩
  · cases hdown : (runSess (initSess events)).downOpen
    · rfl
    · rcases hsome with hc | hc
      · rw [hdown] at hc; exact absurd hc (by simp)
      · exact absurd (h1 hdown) (by simp [hc])
  · cases hup : (runSess (initSess events)).upOpen
    · rfl
    · cases hdown : (runSess (initSess events)).downOpen
      · have := h2 hup hdown
        rw [hq] at this
        exact absurd this (List.not_mem_nil _)
      · rcases hsome with hc | hc
        · simp [hdown] at hc
        · simp [hup] at hc

/-- Message events, the relay traffic proper. -/
def isMsg (e : Ev) : Bool :=
  match e with
  | Ev.msg _ _ => true
  | _ => false

/-- The payloads of the downstream-to-upstream messages of an event list, in
arrival order. -/
def downMsgs (es : List Ev) : List Nat :=
  es.filterMap (fun e =>
    match e with
    | Ev.msg Side.down d => some d
    | _ => none)

/-- The payloads of the upstream-to-downstream messages of an event list, in
arrival order. -/
def upMsgs (es : List Ev) : List Nat :=
  es.filterMap (fun e =>
    match e with
    | Ev.msg Side.up d => some d
    | _ => none)

/-- The session state after a block of message events has been relayed:
the block is consumed from the queue and its payloads are appended to the two
outgoing logs. -/
def afterMsgs (pre rest : List Ev) (s : Sess) : Sess :=
  { s with
      queue := rest
      toUp := s.toUp ++ downMsgs pre
      toDown := s.toDown ++ upMsgs pre }

/-- While both sockets are open, dispatching a block of message events
forwards exactly the downstream payloads to the upstream side and the
upstream payloads to the downstream side, both in arrival order. -/
theorem runSess_msg_phase (pre : List Ev) :
    ∀ (rest : List Ev) (s : Sess), (∀ e ∈ pre, isMsg e = true) → s.downOpen = true →
      s.upOpen = true → s.queue = pre ++ rest →
      runSess s = runSess (afterMsgs pre rest s) := by
  induction pre with
  | nil =>
    intro rest s _ _ _ hq
    obtain ⟨d0, u0, tu, td, q⟩ := s
    simp only [List.nil_append] at hq
    subst hq
    simp [downMsgs, upMsgs, afterMsgs]
  | cons e pre ih =>
    intro rest s hall hd hu hq
    have hmsg : isMsg e = true := hall e (List.mem_cons_self e pre)
    rcases e with ⟨side, x⟩ | side | side
    · rw [runSess_cons s (Ev.msg side x) (pre ++ rest) (by simpa using hq)]
      obtain ⟨d0, u0, tu, td, q⟩ := s
      simp only at hd hu
      subst hd; subst hu
      rcases side
      · have hstep : procEv (Ev.msg Side.down x)
            { downOpen := true, upOpen := true, toUp := tu, toDown := td,
              queue := pre ++ rest } =
            { downOpen := true, upOpen := true, toUp := tu ++ [x], toDown := td,
              queue := pre ++ rest } := by
          simp [procEv, sendUp]
        rw [hstep]
        rw [ih rest _ (fun e he => hall e (List.mem_cons_of_mem _ he)) rfl rfl rfl]
        simp [downMsgs, upMsgs, afterMsgs]
      · have hstep : procEv (Ev.msg Side.up x)
            { downOpen := true, upOpen := true, toUp := tu, toDown := td,
              queue := pre ++ rest } =
            { downOpen := true, upOpen := true, toUp := tu, toDown := td ++ [x],
              queue := pre ++ rest } := by
          simp [procEv, sendDown]
        rw [hstep]
        rw [ih rest _ (fun e he => hall e (List.mem_cons_of_mem _ he)) rfl rfl rfl]
        simp [downMsgs, upMsgs, afterMsgs]
    · simp [isMsg] at hmsg
    · simp [isMsg] at hmsg

theorem procEv_toUp_growth (e : Ev) (s : Sess) : ∃ t, (procEv e s).toUp = s.toUp ++ t := by
  obtain ⟨d0, u0, tu, td, q⟩ := s
  rcases e with ⟨side, x⟩ | side | side <;> rcases side <;> rcases d0 <;> rcases u0 <;>
    simp [procEv, sendUp, sendDown, closeDown, closeUp]

theorem procEv_toDown_growth (e : Ev) (s : Sess) : ∃ t, (procEv e s).toDown = s.toDown ++ t := by
  obtain ⟨d0, u0, tu, td, q⟩ := s
  rcases e with ⟨side, x⟩ | side | side <;> rcases side <;> rcases d0 <;> rcases u0 <;>
    simp [procEv, sendUp, sendDown, closeDown, closeUp]

theorem runSess_toUp_growth (s : Sess) : ∃ t, (runSess s).toUp = s.toUp ++ t := by
  induction s using runSess_induction with
  | hnil s hq => exact ⟨[], by simp [runSess_nil s hq]⟩
  | hstep e rest s hq ih =>
    obtain ⟨t2, h2⟩ := ih
    obtain ⟨t1, h1⟩ := procEv_toUp_growth e { s with queue := rest }
    refine ⟨t1 ++ t2, ?_⟩
    rw [runSess_cons s e rest hq, h2, h1]
    simp

theorem runSess_toDown_growth (s : Sess) : ∃ t, (runSess s).toDown = s.toDown ++ t := by
  induction s using runSess_induction with
  | hnil s hq => exact ⟨[], by simp [runSess_nil s hq]⟩
  | hstep e rest s hq ih =>
    obtain ⟨t2, h2⟩ := ih
    obtain ⟨t1, h1⟩ := procEv_toDown_growth e { s with queue := rest }
    refine ⟨t1 ++ t2, ?_⟩
    rw [runSess_cons s e rest hq, h2, h1]
    simp

/-- ASCII lowercasing, the model of the JavaScript toLowerCase call used on
the upgrade header value, and of the case-insensitive header name lookup:
every character of the string is lowercased. -/
def lowerStr (s : String) : String := String.mk (s.data.map Char.toLower)

/-- Header mapping as received: names with their values, name matching being
case-insensitive. -/
abbrev HeaderList := List (String × String)

/-- Model of Headers.get: the value of the first header whose name matches
case-insensitively. -/
def headerGet (hs : HeaderList) (k : String) : Option String :=
  (hs.find? (fun kv => lowerStr kv.1 == lowerStr k)).map Prod.snd

/-- Configuration resolved once at startup (server/config/env.ts): WEB_URL is
the upstream asset dev server address, a host:port string such as
localhost:5173. -/
structure EnvCfg where
  WEB_URL : String
deriving DecidableEq

/-- Body of the outbound upstream request: absent, a fully buffered byte
value, or a live byte-chunk stream. The source awaits ctx.request.body().value
before calling fetch, which yields a fully materialized value, never a
stream. -/
inductive OutBody where
  | noBody
  | buffered (bytes : List Nat)
  | wire (chunks : List (List Nat))
deriving DecidableEq

/-- Forbidden request header names per the WHATWG fetch standard, restricted
to the one that matters for this proxy: host. Fetch drops such headers from
the caller-supplied list and the HTTP client sets host from the target URL
authority. -/
def isForbiddenRequestHeader (k : String) : Bool := lowerStr k == "host"

/-- The header list fetch actually sends from a caller-supplied list: every
entry except forbidden ones (host). -/
def fetchFilteredHeaders (hs : HeaderList) : HeaderList :=
  hs.filter (fun kv => !(isForbiddenRequestHeader kv.1))

/-- One outbound HTTP request as handed to fetch, after the fetch standard's
header handling: the host actually sent on the wire is the URL authority,
kept as a separate field. -/
structure OutboundRequest where
  url : String
  method : String
  host : String
  headers : HeaderList
  body : OutBody
deriving DecidableEq

/-- The upstream HTTP response: status, headers and an optional body byte
stream, kept as the list of chunks in arrival order. -/
structure UpstreamResponse where
  status : Nat
  headers : HeaderList
  body : Option (List (List Nat))
deriving DecidableEq

/-- Behavior of the single fetch call for this request: the connection
attempt fails (connection refused, DNS failure, timeout: the promise
rejects), or the upstream answers. -/
inductive FetchOutcome where
  | failure
  | success (resp : UpstreamResponse)
deriving DecidableEq

/-- Network oracle for one middleware invocation: what fetch does, and
whether constructing the upstream WebSocket throws synchronously. -/
structure Net where
  fetchResult : FetchOutcome
  wsConstructThrows : Bool
deriving DecidableEq

/-- One inbound request as the middleware sees it through ctx: method, path,
query string (empty or starting with a question mark), headers, whether a
body is present and its chunks, and whether the transport can be upgraded. -/
structure InboundRequest where
  method : String
  path : String
  search : String
  headers : HeaderList
  hasBody : Bool
  bodyChunks : List (List Nat)
  isUpgradable : Bool
deriving DecidableEq

/-- What ctx.response.body holds when the middleware returns. -/
inductive RespBody where
  | unset
  | text (s : String)
  | api (code : Nat) (dataNull : Bool) (status : String) (message : String)
  | stream (chunks : List (List Nat))
  | socket
deriving DecidableEq

/-- Observable outcome of one middleware invocation: the thrown http error if
any, the response status and headers and body if set, whether ctx.upgrade ran,
the upstream WebSocket urls opened (in order), the outbound fetch requests
issued (in order), the relay session installed if any, and whether the
middleware itself called close on the downstream socket. -/
structure MwOutcome where
  thrown : Option Nat
  status : Option Nat
  respHeaders : Option HeaderList
  respBody : RespBody
  upgraded : Bool
  wsOpened : List String
  httpSent : List OutboundRequest
  sess : Option Sess
  downCloseCalled : Bool
deriving DecidableEq

/-- Reading the request body to completion: await ctx.request.body().value
consumes the whole stream and yields one materialized value, modeled here as
the concatenation of the chunks (the binary case; typed cases additionally
transform the bytes). -/
def bodyValue (chunks : List (List Nat)) : List Nat := chunks.flatten

/-- Shallow embedding of frontendMiddleware (server/middleware/frontend.ts).
The branches mirror the source: an upgrade header equal to websocket after
lowercasing selects the WebSocket path, where a non-upgradable transport
throws 501 before anything else, and otherwise ctx.upgrade runs, the upstream
socket is constructed at ws://WEB_URL + path + search and the six relay
handlers are installed (state initSess); a synchronous constructor throw is
caught and only sets status 500. The HTTP path awaits the body value when one
is present, calls fetch at http://WEB_URL + path + search with the request
method and headers, and on success copies status and headers and assigns the
response body stream; a rejected fetch is caught and sets status 502 with the
fixed text Bad Gateway. -/
def frontendMiddleware (env : EnvCfg) (net : Net) (req : InboundRequest) : MwOutcome :=
  let path := req.path
  let searchParams := req.search
  let upgrade := headerGet req.headers "upgrade"
  if upgrade.map lowerStr = some "websocket" then
    if !req.isUpgradable then
      { thrown := some 501, status := none, respHeaders := none, respBody := RespBody.unset,
        upgraded := false, wsOpened := [], httpSent := [], sess := none,
        downCloseCalled := false }
    else
      let wsUrl := "ws://" ++ env.WEB_URL ++ path ++ searchParams
      if net.wsConstructThrows then
        { thrown := none, status := some 500, respHeaders := none, respBody := RespBody.unset,
          upgraded := true, wsOpened := [], httpSent := [], sess := none,
          downCloseCalled := false }
      else
        { thrown := none, status := none, respHeaders := none, respBody := RespBody.socket,
          upgraded := true, wsOpened := [wsUrl], httpSent := [], sess := some (initSess []),
          downCloseCalled := false }
  else
    let requestBody := if req.hasBody then OutBody.buffered (bodyValue req.bodyChunks)
      else OutBody.noBody
    let outReq : OutboundRequest :=
      { url := "http://" ++ env.WEB_URL ++ path ++ searchParams
        method := req.method
        host := env.WEB_URL
        headers := fetchFilteredHeaders req.headers
        body := requestBody }
    match net.fetchResult with
    | FetchOutcome.failure =>
        { thrown := none, status := some 502, respHeaders := none,
          respBody := RespBody.text "Bad Gateway", upgraded := false, wsOpened := [],
          httpSent := [outReq], sess := none, downCloseCalled := false }
    | FetchOutcome.success resp =>
        { thrown := none, status := some resp.status, respHeaders := some resp.headers,
          respBody := (match resp.body with
            | some chunks => RespBody.stream chunks
            | none => RespBody.unset),
          upgraded := false, wsOpened := [], httpSent := [outReq], sess := none,
          downCloseCalled := false }

/-- Model of errorBody (server/utils/bodyFormat.ts): the json envelope with
code 500, data null, status error and the given message. -/
def errorBody (message : String) : RespBody :=
  RespBody.api 500 true "error" message

/-- Default message of the http error created by ctx.throw for the statuses
this middleware throws, per the status text table used by oak. -/
def statusMessage (status : Nat) : String :=
  if status = 501 then "Not Implemented" else "Internal Server Error"

/-- Shallow embedding of the global error interceptor (errorMiddleware in
server/utils/request.ts): a thrown http error is caught, the response status
becomes the error status, and the body becomes the errorBody envelope built
from the error message; anything else passes through unchanged. -/
def errorMiddleware (inner : MwOutcome) : MwOutcome :=
  match inner.thrown with
  | none => inner
  | some st =>
      { inner with
          thrown := none
          status := some st
          respBody := errorBody (statusMessage st) }

theorem mem_fetchFilteredHeaders (hs : HeaderList) (k v : String) :
    (k, v) ∈ fetchFilteredHeaders hs ↔ ((k, v) ∈ hs ∧ ¬ lowerStr k = "host") := by
  simp [fetchFilteredHeaders, List.mem_filter, isForbiddenRequestHeader]

/-- On the plain http branch, the middleware issues exactly one outbound
request, built from the inbound method, the target url, the filtered header
list and the awaited body, whatever the fetch outcome is. -/
theorem frontendMiddleware_httpSent (env : EnvCfg) (net : Net) (req : InboundRequest)
    (hhttp : ¬ (headerGet req.headers "upgrade").map lowerStr = some "websocket") :
    (frontendMiddleware env net req).httpSent =
      [{ url := "http://" ++ env.WEB_URL ++ req.path ++ req.search
         method := req.method
         host := env.WEB_URL
         headers := fetchFilteredHeaders req.headers
         body := if req.hasBody then OutBody.buffered (bodyValue req.bodyChunks)
           else OutBody.noBody }] := by
  cases hfetch : net.fetchResult <;> simp [frontendMiddleware, hhttp, hfetch]

/-- Sample configuration: the development upstream target. -/
def env1 : EnvCfg := { WEB_URL := "localhost:5173" }

/-- Sample upstream answer used by witnesses. -/
def resp1 : UpstreamResponse :=
  { status := 200, headers := [("content-type", "text/javascript")],
    body := some [[99, 111, 110], [115, 111, 108, 101]] }

/-- Network oracle where the upstream target is unreachable. -/
def netFail : Net := { fetchResult := FetchOutcome.failure, wsConstructThrows := false }

/-- Network oracle where the upstream answers with resp1. -/
def netOk : Net := { fetchResult := FetchOutcome.success resp1, wsConstructThrows := false }

/-- Network oracle where constructing the upstream WebSocket throws. -/
def netThrow : Net := { fetchResult := FetchOutcome.failure, wsConstructThrows := true }

/-- Sample plain http request, carrying an accept header and a client host
header. -/
def reqHttp : InboundRequest :=
  { method := "GET", path := "/assets/app.js", search := "", hasBody := false,
    headers := [("Accept", "*/*"), ("Host", "example.com")], bodyChunks := [],
    isUpgradable := false }

/-- Sample http request carrying a two-chunk body. -/
def reqBody1 : InboundRequest :=
  { method := "POST", path := "/upload", search := "", hasBody := true,
    headers := [("Content-Type", "application/octet-stream")],
    bodyChunks := [[1], [2, 3]], isUpgradable := false }

/-- Sample upgrade request on a transport that cannot be upgraded. -/
def reqWs : InboundRequest :=
  { method := "GET", path := "/ws", search := "", hasBody := false,
    headers := [("Upgrade", "WebSocket")], bodyChunks := [], isUpgradable := false }

/-- Sample upgrade request on an upgradable transport. -/
def reqWsOk : InboundRequest :=
  { method := "GET", path := "/ws", search := "?hmr=1", hasBody := false,
    headers := [("Upgrade", "websocket")], bodyChunks := [], isUpgradable := true }

/-- C1: for every proxied http request (no websocket upgrade header), the one
outbound request issued to the upstream target has the same method, its wire
host is the upstream target address rather than the inbound host header, and
its header list is exactly the inbound header set minus the host header. -/
theorem C1_forward_method_headers (env : EnvCfg) (net : Net) (req : InboundRequest)
    (hhttp : ¬ (headerGet req.headers "upgrade").map lowerStr = some "websocket") :
    ∃ out : OutboundRequest,
      (frontendMiddleware env net req).httpSent = [out] ∧
      out.method = req.method ∧
      out.host = env.WEB_URL ∧
      out.url = "http://" ++ env.WEB_URL ++ req.path ++ req.search ∧
      (∀ k v, (k, v) ∈ out.headers ↔ ((k, v) ∈ req.headers ∧ ¬ lowerStr k = "host")) := by
  refine ⟨_, frontendMiddleware_httpSent env net req hhttp, rfl, rfl, rfl, ?_⟩
  intro k v
  exact mem_fetchFilteredHeaders req.headers k v

theorem C1_forward_method_headers_witness :
    (¬ (headerGet reqHttp.headers "upgrade").map lowerStr = some "websocket") ∧
    (∃ out : OutboundRequest,
      (frontendMiddleware env1 netOk reqHttp).httpSent = [out] ∧
      out.method = reqHttp.method ∧
      out.host = env1.WEB_URL ∧
      out.url = "http://" ++ env1.WEB_URL ++ reqHttp.path ++ reqHttp.search ∧
      (∀ k v, (k, v) ∈ out.headers ↔ ((k, v) ∈ reqHttp.headers ∧ ¬ lowerStr k = "host"))) :=
  ⟨by decide, C1_forward_method_headers env1 netOk reqHttp (by decide)⟩

/-- C2: when the upstream target is unreachable, the middleware catches the
fetch rejection and answers 502 with the fixed non-empty text Bad Gateway; no
error escapes the middleware, and the surrounding error interceptor passes
the outcome through unchanged. -/
theorem C2_bad_gateway (env : EnvCfg) (net : Net) (req : InboundRequest)
    (hhttp : ¬ (headerGet req.headers "upgrade").map lowerStr = some "websocket")
    (hfail : net.fetchResult = FetchOutcome.failure) :
    (frontendMiddleware env net req).status = some 502 ∧
    (frontendMiddleware env net req).respBody = RespBody.text "Bad Gateway" ∧
    (frontendMiddleware env net req).thrown = none ∧
    errorMiddleware (frontendMiddleware env net req) = frontendMiddleware env net req ∧
    "Bad Gateway" ≠ "" := by
  refine ⟨?_, ?_, ?_, ?_, by decide⟩ <;>
    simp [frontendMiddleware, errorMiddleware, hhttp, hfail]

theorem C2_bad_gateway_witness :
    ((¬ (headerGet reqHttp.headers "upgrade").map lowerStr = some "websocket") ∧
      netFail.fetchResult = FetchOutcome.failure) ∧
    ((frontendMiddleware env1 netFail reqHttp).status = some 502 ∧
      (frontendMiddleware env1 netFail reqHttp).respBody = RespBody.text "Bad Gateway" ∧
      (frontendMiddleware env1 netFail reqHttp).thrown = none ∧
      errorMiddleware (frontendMiddleware env1 netFail reqHttp) =
        frontendMiddleware env1 netFail reqHttp ∧
      "Bad Gateway" ≠ "") :=
  ⟨⟨by decide, by decide⟩, C2_bad_gateway env1 netFail reqHttp (by decide) (by decide)⟩

/-- C3: a websocket upgrade request (upgrade header naming websocket, case
insensitively) on a transport that cannot be upgraded throws 501 before
anything else: no upstream connection of either kind is opened, no upgrade is
performed, and the error interceptor turns the throw into a 501 response
without re-propagating it. -/
theorem C3_not_upgradable_501 (env : EnvCfg) (net : Net) (req : InboundRequest)
    (hws : (headerGet req.headers "upgrade").map lowerStr = some "websocket")
    (hnu : req.isUpgradable = false) :
    (frontendMiddleware env net req).thrown = some 501 ∧
    (frontendMiddleware env net req).wsOpened = [] ∧
    (frontendMiddleware env net req).httpSent = [] ∧
    (frontendMiddleware env net req).upgraded = false ∧
    (errorMiddleware (frontendMiddleware env net req)).status = some 501 ∧
    (errorMiddleware (frontendMiddleware env net req)).thrown = none := by
  refine ⟨?_, ?_, ?_, ?_, ?_, ?_⟩ <;>
    simp [frontendMiddleware, errorMiddleware, hws, hnu]

theorem C3_not_upgradable_501_witness :
    ((headerGet reqWs.headers "upgrade").map lowerStr = some "websocket" ∧
      reqWs.isUpgradable = false) ∧
    ((frontendMiddleware env1 netOk reqWs).thrown = some 501 ∧
      (frontendMiddleware env1 netOk reqWs).wsOpened = [] ∧
      (frontendMiddleware env1 netOk reqWs).httpSent = [] ∧
      (frontendMiddleware env1 netOk reqWs).upgraded = false ∧
      (errorMiddleware (frontendMiddleware env1 netOk reqWs)).status = some 501 ∧
      (errorMiddleware (frontendMiddleware env1 netOk reqWs)).thrown = none) :=
  ⟨⟨by decide, by decide⟩, C3_not_upgradable_501 env1 netOk reqWs (by decide) (by decide)⟩

/-- C4 counterexample: the claim says the request body is passed through to
the upstream request as a stream without being fully buffered; on the request
with body chunks [1] and [2, 3] the outbound body is not the pass-through
stream of those chunks (the middleware awaits body().value, so it sends the
buffered concatenation instead). -/
theorem C4_counterexample :
    ¬ ((frontendMiddleware env1 netOk reqBody1).httpSent.map (fun o => o.body) =
        [OutBody.wire [[1], [2, 3]]]) := by
  decide

/-- C4 amended: for every proxied http request that carries a body, the body
is first read to completion in memory (await body().value) and the outbound
request carries the fully buffered concatenation of the body chunks, never a
live stream. -/
theorem C4_buffered_body (env : EnvCfg) (net : Net) (req : InboundRequest)
    (hhttp : ¬ (headerGet req.headers "upgrade").map lowerStr = some "websocket")
    (hbody : req.hasBody = true) :
    ∃ out : OutboundRequest,
      (frontendMiddleware env net req).httpSent = [out] ∧
      out.body = OutBody.buffered (bodyValue req.bodyChunks) ∧
      (∀ chunks, ¬ out.body = OutBody.wire chunks) := by
  refine ⟨_, frontendMiddleware_httpSent env net req hhttp, ?_, ?_⟩
  · simp [hbody]
  · intro chunks h
    rw [hbody] at h
    simp at h

theorem C4_buffered_body_witness :
    ((¬ (headerGet reqBody1.headers "upgrade").map lowerStr = some "websocket") ∧
      reqBody1.hasBody = true) ∧
    (∃ out : OutboundRequest,
      (frontendMiddleware env1 netOk reqBody1).httpSent = [out] ∧
      out.body = OutBody.buffered (bodyValue reqBody1.bodyChunks) ∧
      (∀ chunks, ¬ out.body = OutBody.wire chunks)) :=
  ⟨⟨by decide, by decide⟩, C4_buffered_body env1 netOk reqBody1 (by decide) (by decide)⟩

/-- C5: when the upstream answers, the caller gets the upstream status code,
the upstream response headers, and when a body is present the very stream of
chunks the upstream sent, unmodified, and nothing is thrown. -/
theorem C5_response_passthrough (env : EnvCfg) (net : Net) (req : InboundRequest)
    (resp : UpstreamResponse)
    (hhttp : ¬ (headerGet req.headers "upgrade").map lowerStr = some "websocket")
    (hok : net.fetchResult = FetchOutcome.success resp) :
    (frontendMiddleware env net req).status = some resp.status ∧
    (frontendMiddleware env net req).respHeaders = some resp.headers ∧
    (∀ chunks, resp.body = some chunks →
      (frontendMiddleware env net req).respBody = RespBody.stream chunks) ∧
    (frontendMiddleware env net req).thrown = none := by
  refine ⟨?_, ?_, ?_, ?_⟩ <;> simp [frontendMiddleware, hhttp, hok]
  intro chunks hc
  simp [hc]

theorem C5_response_passthrough_witness :
    ((¬ (headerGet reqHttp.headers "upgrade").map lowerStr = some "websocket") ∧
      netOk.fetchResult = FetchOutcome.success resp1) ∧
    ((frontendMiddleware env1 netOk reqHttp).status = some resp1.status ∧
      (frontendMiddleware env1 netOk reqHttp).respHeaders = some resp1.headers ∧
      (∀ chunks, resp1.body = some chunks →
        (frontendMiddleware env1 netOk reqHttp).respBody = RespBody.stream chunks) ∧
      (frontendMiddleware env1 netOk reqHttp).thrown = none) :=
  ⟨⟨by decide, by decide⟩,
    C5_response_passthrough env1 netOk reqHttp resp1 (by decide) (by decide)⟩

/-- C6: once any closing condition fires on an open relay session (downstream
close, upstream close, downstream error or upstream error anywhere in the
delivered events), running the session to quiescence closes both connections
and leaves nothing pending: no half-open connection remains. -/
theorem C6_teardown_both_closed (events : List Ev)
    (h : ∃ e ∈ events, isTrigger e = true) :
    (runSess (initSess events)).downOpen = false ∧
    (runSess (initSess events)).upOpen = false ∧
    (runSess (initSess events)).queue = [] := by
  have hq := runSess_queue (initSess events)
  have hinv := runSess_inv (initSess events) (by constructor <;> simp [initSess])
  have hsome := runSess_trigger (initSess events) h
  obtain ⟨h1, h2⟩ := hinv
  refine ⟨?_, ?_, hq⟩
  · cases hdown : (runSess (initSess events)).downOpen
    · rfl
    · rcases hsome with hc | hc
      · rw [hdown] at hc; exact absurd hc (by simp)
      · exact absurd (h1 hdown) (by simp [hc])
  · cases hup : (runSess (initSess events)).upOpen
    · rfl
    · cases hdown : (runSess (initSess events)).downOpen
      · have := h2 hup hdown
        rw [hq] at this
        exact absurd this (List.not_mem_nil _)
      · rcases hsome with hc | hc
        · simp [hdown] at hc
        · simp [hup] at hc

theorem C6_teardown_both_closed_witness :
    (∃ e ∈ [Ev.msg Side.down 3, Ev.closeEv Side.down], isTrigger e = true) ∧
    ((runSess (initSess [Ev.msg Side.down 3, Ev.closeEv Side.down])).downOpen = false ∧
      (runSess (initSess [Ev.msg Side.down 3, Ev.closeEv Side.down])).upOpen = false ∧
      (runSess (initSess [Ev.msg Side.down 3, Ev.closeEv Side.down])).queue = []) :=
  ⟨by decide, C6_teardown_both_closed [Ev.msg Side.down 3, Ev.closeEv Side.down] (by decide)⟩

/-- C7 counterexample: the claim says that when opening the upstream
connection fails the downstream connection is closed; when the upstream
WebSocket constructor throws, the middleware only sets status 500: it never
calls close on the already upgraded downstream socket and installs no relay
session that could ever close it, so the downstream connection is not
closed. -/
theorem C7_counterexample :
    (frontendMiddleware env1 netThrow reqWsOk).upgraded = true ∧
    (frontendMiddleware env1 netThrow reqWsOk).status = some 500 ∧
    (frontendMiddleware env1 netThrow reqWsOk).sess = none ∧
    ¬ ((frontendMiddleware env1 netThrow reqWsOk).downCloseCalled = true) := by
  refine ⟨?_, ?_, ?_, ?_⟩ <;> decide

/-- C7 amended: for every accepted upgrade, exactly one upstream connection
is opened, only after the downstream upgrade succeeded and before any relay
traffic, at ws://target with the same path and query; if the upstream
constructor throws, status 500 is reported but the downstream socket is left
open (not closed); an upstream connection that fails asynchronously leads to
the downstream socket being closed by the installed handlers. -/
theorem C7_upstream_invariant (env : EnvCfg) (net : Net) (req : InboundRequest)
    (hws : (headerGet req.headers "upgrade").map lowerStr = some "websocket")
    (hup : req.isUpgradable = true) :
    (net.wsConstructThrows = false →
      (frontendMiddleware env net req).wsOpened =
        ["ws://" ++ env.WEB_URL ++ req.path ++ req.search] ∧
      (frontendMiddleware env net req).upgraded = true ∧
      (frontendMiddleware env net req).sess = some (initSess []) ∧
      (initSess []).toUp = [] ∧ (initSess []).toDown = []) ∧
    (net.wsConstructThrows = true →
      (frontendMiddleware env net req).status = some 500 ∧
      (frontendMiddleware env net req).wsOpened = [] ∧
      (frontendMiddleware env net req).sess = none ∧
      (frontendMiddleware env net req).downCloseCalled = false) ∧
    ((frontendMiddleware env net req).wsOpened ≠ [] →
      (frontendMiddleware env net req).upgraded = true) ∧
    (runSess (initSess [Ev.errEv Side.up])).downOpen = false := by
  cases hthrow : net.wsConstructThrows <;>
    refine ⟨?_, ?_, ?_, by decide⟩ <;>
    simp [frontendMiddleware, hws, hup, hthrow, initSess]

theorem C7_upstream_invariant_witness :
    ((headerGet reqWsOk.headers "upgrade").map lowerStr = some "websocket" ∧
      reqWsOk.isUpgradable = true) ∧
    ((netOk.wsConstructThrows = false →
      (frontendMiddleware env1 netOk reqWsOk).wsOpened =
        ["ws://" ++ env1.WEB_URL ++ reqWsOk.path ++ reqWsOk.search] ∧
      (frontendMiddleware env1 netOk reqWsOk).upgraded = true ∧
      (frontendMiddleware env1 netOk reqWsOk).sess = some (initSess []) ∧
      (initSess []).toUp = [] ∧ (initSess []).toDown = []) ∧
    (netOk.wsConstructThrows = true →
      (frontendMiddleware env1 netOk reqWsOk).status = some 500 ∧
      (frontendMiddleware env1 netOk reqWsOk).wsOpened = [] ∧
      (frontendMiddleware env1 netOk reqWsOk).sess = none ∧
      (frontendMiddleware env1 netOk reqWsOk).downCloseCalled = false) ∧
    ((frontendMiddleware env1 netOk reqWsOk).wsOpened ≠ [] →
      (frontendMiddleware env1 netOk reqWsOk).upgraded = true) ∧
    (runSess (initSess [Ev.errEv Side.up])).downOpen = false) :=
  ⟨⟨by decide, by decide⟩, C7_upstream_invariant env1 netOk reqWsOk (by decide) (by decide)⟩

/-- C8: per direction the relay is FIFO: all messages delivered while the
session is fully open are forwarded to the other side exactly in arrival
order, each direction independently; nothing relates the two directions. -/
theorem C8_fifo_per_direction (pre post : List Ev) (hall : ∀ e ∈ pre, isMsg e = true) :
    ∃ tu td,
      (runSess (initSess (pre ++ post))).toUp = downMsgs pre ++ tu ∧
      (runSess (initSess (pre ++ post))).toDown = upMsgs pre ++ td ∧
      (post = [] → tu = [] ∧ td = []) := by
  have hphase := runSess_msg_phase pre post (initSess (pre ++ post)) hall rfl rfl rfl
  by_cases hpost : post = []
  · subst hpost
    refine ⟨[], [], ?_, ?_, fun _ => ⟨rfl, rfl⟩⟩ <;>
      rw [hphase, runSess_nil _ (by simp [afterMsgs, initSess])] <;>
      simp [afterMsgs, initSess]
  · obtain ⟨tu, htu⟩ := runSess_toUp_growth (afterMsgs pre post (initSess (pre ++ post)))
    obtain ⟨td, htd⟩ := runSess_toDown_growth (afterMsgs pre post (initSess (pre ++ post)))
    refine ⟨tu, td, ?_, ?_, fun h => absurd h hpost⟩
    · rw [hphase, htu]; simp [afterMsgs, initSess]
    · rw [hphase, htd]; simp [afterMsgs, initSess]

theorem C8_fifo_per_direction_witness :
    (∀ e ∈ [Ev.msg Side.down 1, Ev.msg Side.up 7, Ev.msg Side.down 2], isMsg e = true) ∧
    (∃ tu td,
      (runSess (initSess ([Ev.msg Side.down 1, Ev.msg Side.up 7, Ev.msg Side.down 2] ++
        [Ev.closeEv Side.down]))).toUp =
        downMsgs [Ev.msg Side.down 1, Ev.msg Side.up 7, Ev.msg Side.down 2] ++ tu ∧
      (runSess (initSess ([Ev.msg Side.down 1, Ev.msg Side.up 7, Ev.msg Side.down 2] ++
        [Ev.closeEv Side.down]))).toDown =
        upMsgs [Ev.msg Side.down 1, Ev.msg Side.up 7, Ev.msg Side.down 2] ++ td ∧
      ([Ev.closeEv Side.down] = ([] : List Ev) → tu = [] ∧ td = [])) :=
  ⟨by decide,
    C8_fifo_per_direction [Ev.msg Side.down 1, Ev.msg Side.up 7, Ev.msg Side.down 2]
      [Ev.closeEv Side.down] (by decide)⟩

/-- C9: close is idempotent: invoking close on a side whose socket is already
closed, or dispatching a close event to a session whose sockets are already
closed, changes nothing: no state change, no new event, no relayed data, so
no double-close fault and no duplicate side effect. -/
theorem C9_close_idempotent (s : Sess) (hd : s.downOpen = false) (hu : s.upOpen = false) :
    closeDown s = s ∧ closeUp s = s ∧
    procEv (Ev.closeEv Side.down) s = s ∧ procEv (Ev.closeEv Side.up) s = s := by
  obtain ⟨d0, u0, tu, td, q⟩ := s
  simp only at hd hu
  subst hd; subst hu
  refine ⟨?_, ?_, ?_, ?_⟩ <;> simp [closeDown, closeUp, procEv]

theorem C9_close_idempotent_witness :
    ((Sess.mk false false [4] [5] []).downOpen = false ∧
      (Sess.mk false false [4] [5] []).upOpen = false) ∧
    (closeDown (Sess.mk false false [4] [5] []) = Sess.mk false false [4] [5] [] ∧
      closeUp (Sess.mk false false [4] [5] []) = Sess.mk false false [4] [5] [] ∧
      procEv (Ev.closeEv Side.down) (Sess.mk false false [4] [5] []) =
        Sess.mk false false [4] [5] [] ∧
      procEv (Ev.closeEv Side.up) (Sess.mk false false [4] [5] []) =
        Sess.mk false false [4] [5] []) :=
  ⟨⟨by decide, by decide⟩,
    C9_close_idempotent (Sess.mk false false [4] [5] []) (by decide) (by decide)⟩

/-- C10: the 501 raised by ctx.throw for a non-upgradable transport is
rendered by the global error middleware: the response keeps http status 501
but its body is the json envelope built by errorBody, whose internal code
field is the fixed 500, with data null, status error and the error message,
not an empty or plain text body. -/
theorem C10_envelope_code_500 (env : EnvCfg) (net : Net) (req : InboundRequest)
    (hws : (headerGet req.headers "upgrade").map lowerStr = some "websocket")
    (hnu : req.isUpgradable = false) :
    (errorMiddleware (frontendMiddleware env net req)).status = some 501 ∧
    (errorMiddleware (frontendMiddleware env net req)).respBody =
      RespBody.api 500 true "error" "Not Implemented" ∧
    (errorMiddleware (frontendMiddleware env net req)).respBody =
      errorBody (statusMessage 501) ∧
    (∀ t, ¬ (errorMiddleware (frontendMiddleware env net req)).respBody = RespBody.text t) ∧
    ¬ (errorMiddleware (frontendMiddleware env net req)).respBody = RespBody.unset := by
  refine ⟨?_, ?_, ?_, ?_, ?_⟩ <;>
    simp [frontendMiddleware, errorMiddleware, errorBody, statusMessage, hws, hnu]

theorem C10_envelope_code_500_witness :
    ((headerGet reqWs.headers "upgrade").map lowerStr = some "websocket" ∧
      reqWs.isUpgradable = false) ∧
    ((errorMiddleware (frontendMiddleware env1 netOk reqWs)).status = some 501 ∧
      (errorMiddleware (frontendMiddleware env1 netOk reqWs)).respBody =
        RespBody.api 500 true "error" "Not Implemented" ∧
      (errorMiddleware (frontendMiddleware env1 netOk reqWs)).respBody =
        errorBody (statusMessage 501) ∧
      (∀ t, ¬ (errorMiddleware (frontendMiddleware env1 netOk reqWs)).respBody =
        RespBody.text t) ∧
      ¬ (errorMiddleware (frontendMiddleware env1 netOk reqWs)).respBody = RespBody.unset) :=
  ⟨⟨by decide, by decide⟩, C10_envelope_code_500 env1 netOk reqWs (by decide) (by decide)⟩

end DenoProxy
